import Mathlib

/-!
Verification of the AI-Avatar-Interviewer real-time lip-sync / expression
pipeline against its natural-language specification.

The TypeScript sources are shallowly embedded: JavaScript numbers are
modelled as rationals (the arithmetic in the claims is exact rational
arithmetic: min/max clamping, affine smoothing steps), morph-target
dictionaries as association lists, and each stateful class method as an
explicit state-passing function.
-/

namespace Avatar

/-! ## Viseme Mapper (LipSyncManager, src/unnamed/part_003) -/

/-- `Math.max(0, Math.min(1, x))`, the [0,1] clip used throughout the code. -/
def clamp01 (x : ℚ) : ℚ := max 0 (min 1 x)

/-- One exponential-smoothing step: `current + (target - current) * s`. -/
def smoothStep (s current target : ℚ) : ℚ := current + (target - current) * s

/-- The `MorphTargets` record: one weight per mouth channel. -/
structure MorphTargets where
  A : ℚ
  I : ℚ
  U : ℚ
  E : ℚ
  O : ℚ
  neutral : ℚ
  deriving DecidableEq, Repr

/-- The mutable state of `LipSyncManager` relevant to the weight claims:
`currentMorphWeights` and `smoothingFactor`. -/
structure LipSyncState where
  currentMorphWeights : MorphTargets
  smoothingFactor : ℚ
  deriving DecidableEq, Repr

/-- The initial `currentMorphWeights` / the value installed by `reset()`. -/
def initialMorphWeights : MorphTargets := ⟨0, 0, 0, 0, 0, 1⟩

/-- A freshly constructed `LipSyncManager`: neutral weights, smoothing 0.15. -/
def initialLipSyncState : LipSyncState := ⟨initialMorphWeights, 0.15⟩

/-- `this.currentMorphWeights[phoneme] || 0`: field read, 0 for unknown keys. -/
def getMorphWeight (w : MorphTargets) (phoneme : String) : ℚ :=
  match phoneme with
  | "A" => w.A
  | "I" => w.I
  | "U" => w.U
  | "E" => w.E
  | "O" => w.O
  | "neutral" => w.neutral
  | _ => 0

/-- `LipSyncManager.setMorphWeight`: clamp the argument to [0,1], smooth from
the current value, and store the smoothed value when the key names a channel. -/
def setMorphWeight (st : LipSyncState) (phoneme : String) (weight : ℚ) : LipSyncState :=
  let w := clamp01 weight
  let current := getMorphWeight st.currentMorphWeights phoneme
  let smoothed := smoothStep st.smoothingFactor current w
  match phoneme with
  | "A" => { st with currentMorphWeights.A := smoothed }
  | "I" => { st with currentMorphWeights.I := smoothed }
  | "U" => { st with currentMorphWeights.U := smoothed }
  | "E" => { st with currentMorphWeights.E := smoothed }
  | "O" => { st with currentMorphWeights.O := smoothed }
  | "neutral" => { st with currentMorphWeights.neutral := smoothed }
  | _ => st

/-- `LipSyncManager.updateFromVolume` (model application elided; it does not
touch `currentMorphWeights`). -/
def updateFromVolume (st : LipSyncState) (volume : ℚ) : LipSyncState :=
  let mouthOpenness := min 1 (volume * 2)
  let st := setMorphWeight st "A" mouthOpenness
  setMorphWeight st "neutral" (max 0 (1 - mouthOpenness))

/-- The five frequency-band energies fed to `updateFromFrequencyBands`. -/
structure FrequencyBands where
  O : ℚ
  A : ℚ
  E : ℚ
  I : ℚ
  U : ℚ
  deriving DecidableEq, Repr

/-- `LipSyncManager.updateFromFrequencyBands`. -/
def updateFromFrequencyBands (st : LipSyncState) (bands : FrequencyBands) : LipSyncState :=
  let totalEnergy := (bands.O + bands.A + bands.E + bands.I + bands.U) / 5
  let st := setMorphWeight st "O" (max 0 (bands.O - 0.1))
  let st := setMorphWeight st "A" (max 0 (bands.A - 0.1))
  let st := setMorphWeight st "E" (max 0 (bands.E - 0.1))
  let st := setMorphWeight st "I" (max 0 (bands.I - 0.1))
  let st := setMorphWeight st "U" (max 0 (bands.U - 0.1))
  setMorphWeight st "neutral" (max 0 (1 - totalEnergy * 2))

/-- `LipSyncManager.playPhoneme`: `setMorphWeight(key, 0)` for every
non-neutral key (in `Object.keys` insertion order A,I,U,E,O), then activate
the requested phoneme. -/
def playPhoneme (st : LipSyncState) (phoneme : String) : LipSyncState :=
  let st := setMorphWeight st "A" 0
  let st := setMorphWeight st "I" 0
  let st := setMorphWeight st "U" 0
  let st := setMorphWeight st "E" 0
  let st := setMorphWeight st "O" 0
  if phoneme ≠ "neutral" then
    let st := setMorphWeight st phoneme 1
    setMorphWeight st "neutral" 0
  else
    setMorphWeight st "neutral" 1

/-- `LipSyncManager.reset`: hard reset of the weights. -/
def lipSyncReset (st : LipSyncState) : LipSyncState :=
  { st with currentMorphWeights := initialMorphWeights }

/-- `LipSyncManager.setSmoothingFactor`. -/
def setSmoothingFactor (st : LipSyncState) (factor : ℚ) : LipSyncState :=
  { st with smoothingFactor := clamp01 factor }

/-- The sequence of `LipSyncManager` mutators named by the weight-range
invariant claim. -/
inductive LipOp where
  | setW (phoneme : String) (weight : ℚ)
  | fromVolume (volume : ℚ)
  | fromBands (bands : FrequencyBands)
  | play (phoneme : String)
  | doReset
  deriving Repr

/-- Run one `LipSyncManager` call. -/
def applyLipOp (st : LipSyncState) : LipOp → LipSyncState
  | .setW p w => setMorphWeight st p w
  | .fromVolume v => updateFromVolume st v
  | .fromBands b => updateFromFrequencyBands st b
  | .play p => playPhoneme st p
  | .doReset => lipSyncReset st

/-- Run a call sequence left to right. -/
def applyLipOps (st : LipSyncState) (ops : List LipOp) : LipSyncState :=
  ops.foldl applyLipOp st

/-- All six stored morph weights lie in [0,1]. -/
def WeightsIn01 (w : MorphTargets) : Prop :=
  (0 ≤ w.A ∧ w.A ≤ 1) ∧ (0 ≤ w.I ∧ w.I ≤ 1) ∧ (0 ≤ w.U ∧ w.U ≤ 1) ∧
  (0 ≤ w.E ∧ w.E ≤ 1) ∧ (0 ≤ w.O ∧ w.O ≤ 1) ∧ (0 ≤ w.neutral ∧ w.neutral ≤ 1)

lemma clamp01_eq_self {x : ℚ} (h0 : 0 ≤ x) (h1 : x ≤ 1) : clamp01 x = x := by
  unfold clamp01
  rw [min_eq_right h1, max_eq_right h0]

lemma clamp01_mem (x : ℚ) : 0 ≤ clamp01 x ∧ clamp01 x ≤ 1 := by
  unfold clamp01
  constructor
  · exact le_max_left 0 _
  · exact max_le (by norm_num) (min_le_left 1 x)

lemma smoothStep_mem {s c t : ℚ} (hs0 : 0 ≤ s) (hs1 : s ≤ 1)
    (hc0 : 0 ≤ c) (hc1 : c ≤ 1) (ht0 : 0 ≤ t) (ht1 : t ≤ 1) :
    0 ≤ smoothStep s c t ∧ smoothStep s c t ≤ 1 := by
  unfold smoothStep
  constructor <;> nlinarith

lemma setMorphWeight_smoothingFactor (st : LipSyncState) (p : String) (w : ℚ) :
    (setMorphWeight st p w).smoothingFactor = st.smoothingFactor := by
  unfold setMorphWeight
  split <;> rfl

lemma setMorphWeight_preserves (st : LipSyncState) (p : String) (w : ℚ)
    (hs0 : 0 ≤ st.smoothingFactor) (hs1 : st.smoothingFactor ≤ 1)
    (hw : WeightsIn01 st.currentMorphWeights) :
    WeightsIn01 (setMorphWeight st p w).currentMorphWeights := by
  obtain ⟨hA, hI, hU, hE, hO, hN⟩ := hw
  have hcl := clamp01_mem w
  unfold setMorphWeight
  split
  · exact ⟨smoothStep_mem hs0 hs1 hA.1 hA.2 hcl.1 hcl.2, hI, hU, hE, hO, hN⟩
  · exact ⟨hA, smoothStep_mem hs0 hs1 hI.1 hI.2 hcl.1 hcl.2, hU, hE, hO, hN⟩
  · exact ⟨hA, hI, smoothStep_mem hs0 hs1 hU.1 hU.2 hcl.1 hcl.2, hE, hO, hN⟩
  · exact ⟨hA, hI, hU, smoothStep_mem hs0 hs1 hE.1 hE.2 hcl.1 hcl.2, hO, hN⟩
  · exact ⟨hA, hI, hU, hE, smoothStep_mem hs0 hs1 hO.1 hO.2 hcl.1 hcl.2, hN⟩
  · exact ⟨hA, hI, hU, hE, hO, smoothStep_mem hs0 hs1 hN.1 hN.2 hcl.1 hcl.2⟩
  · exact ⟨hA, hI, hU, hE, hO, hN⟩

/-- The state-level invariant: smoothing factor and all weights in [0,1]. -/
def LipInv (st : LipSyncState) : Prop :=
  (0 ≤ st.smoothingFactor ∧ st.smoothingFactor ≤ 1) ∧
  WeightsIn01 st.currentMorphWeights

lemma setMorphWeight_inv {st : LipSyncState} (p : String) (w : ℚ)
    (h : LipInv st) : LipInv (setMorphWeight st p w) := by
  refine ⟨?_, setMorphWeight_preserves st p w h.1.1 h.1.2 h.2⟩
  rw [setMorphWeight_smoothingFactor]
  exact h.1

lemma applyLipOp_inv {st : LipSyncState} (op : LipOp)
    (h : LipInv st) : LipInv (applyLipOp st op) := by
  cases op with
  | setW p w => exact setMorphWeight_inv p w h
  | fromVolume v =>
      exact setMorphWeight_inv _ _ (setMorphWeight_inv _ _ h)
  | fromBands b =>
      exact setMorphWeight_inv _ _ (setMorphWeight_inv _ _ (setMorphWeight_inv _ _
        (setMorphWeight_inv _ _ (setMorphWeight_inv _ _ (setMorphWeight_inv _ _ h)))))
  | play p =>
      show LipInv (playPhoneme st p)
      unfold playPhoneme
      split
      · exact setMorphWeight_inv _ _ (setMorphWeight_inv _ _ (setMorphWeight_inv _ _
          (setMorphWeight_inv _ _ (setMorphWeight_inv _ _ (setMorphWeight_inv _ _
            (setMorphWeight_inv _ _ h))))))
      · exact setMorphWeight_inv _ _ (setMorphWeight_inv _ _ (setMorphWeight_inv _ _
          (setMorphWeight_inv _ _ (setMorphWeight_inv _ _ (setMorphWeight_inv _ _ h)))))
  | doReset =>
      refine ⟨h.1, ?_⟩
      show WeightsIn01 initialMorphWeights
      norm_num [WeightsIn01, initialMorphWeights]

/-- C1 counterexample evidence: from the initial state (smoothingFactor 0.15),
`playPhoneme('A')` leaves `A = 0.15` and `neutral = 0.85`, not 1 and 0. -/
theorem playPhoneme_A_initial_not_one :
    (playPhoneme initialLipSyncState "A").currentMorphWeights = ⟨3/20, 0, 0, 0, 0, 17/20⟩ ∧
    ((3 : ℚ)/20 ≠ 1) ∧ ((17 : ℚ)/20 ≠ 0) := by
  refine ⟨?_, by norm_num, by norm_num⟩
  norm_num [playPhoneme, setMorphWeight, initialLipSyncState, initialMorphWeights,
    getMorphWeight, clamp01, smoothStep]
  rfl

/-- C1 amended: `playPhoneme(p)` does not write exact 0/1 values; it applies
the exponential smoothing step toward 0 to every non-neutral channel, then the
step toward 1 to the named channel (on top of its decay step) and the step
toward 0 to `neutral` — or, for `p = "neutral"`, the step toward 1 to
`neutral` — so exact 0/1 is reached only when `smoothingFactor = 1`. -/
theorem playPhoneme_smoothing_characterisation (st : LipSyncState) :
    (playPhoneme st "A").currentMorphWeights =
      ⟨smoothStep st.smoothingFactor (smoothStep st.smoothingFactor st.currentMorphWeights.A 0) 1,
       smoothStep st.smoothingFactor st.currentMorphWeights.I 0,
       smoothStep st.smoothingFactor st.currentMorphWeights.U 0,
       smoothStep st.smoothingFactor st.currentMorphWeights.E 0,
       smoothStep st.smoothingFactor st.currentMorphWeights.O 0,
       smoothStep st.smoothingFactor st.currentMorphWeights.neutral 0⟩ ∧
    (playPhoneme st "I").currentMorphWeights =
      ⟨smoothStep st.smoothingFactor st.currentMorphWeights.A 0,
       smoothStep st.smoothingFactor (smoothStep st.smoothingFactor st.currentMorphWeights.I 0) 1,
       smoothStep st.smoothingFactor st.currentMorphWeights.U 0,
       smoothStep st.smoothingFactor st.currentMorphWeights.E 0,
       smoothStep st.smoothingFactor st.currentMorphWeights.O 0,
       smoothStep st.smoothingFactor st.currentMorphWeights.neutral 0⟩ ∧
    (playPhoneme st "U").currentMorphWeights =
      ⟨smoothStep st.smoothingFactor st.currentMorphWeights.A 0,
       smoothStep st.smoothingFactor st.currentMorphWeights.I 0,
       smoothStep st.smoothingFactor (smoothStep st.smoothingFactor st.currentMorphWeights.U 0) 1,
       smoothStep st.smoothingFactor st.currentMorphWeights.E 0,
       smoothStep st.smoothingFactor st.currentMorphWeights.O 0,
       smoothStep st.smoothingFactor st.currentMorphWeights.neutral 0⟩ ∧
    (playPhoneme st "E").currentMorphWeights =
      ⟨smoothStep st.smoothingFactor st.currentMorphWeights.A 0,
       smoothStep st.smoothingFactor st.currentMorphWeights.I 0,
       smoothStep st.smoothingFactor st.currentMorphWeights.U 0,
       smoothStep st.smoothingFactor (smoothStep st.smoothingFactor st.currentMorphWeights.E 0) 1,
       smoothStep st.smoothingFactor st.currentMorphWeights.O 0,
       smoothStep st.smoothingFactor st.currentMorphWeights.neutral 0⟩ ∧
    (playPhoneme st "O").currentMorphWeights =
      ⟨smoothStep st.smoothingFactor st.currentMorphWeights.A 0,
       smoothStep st.smoothingFactor st.currentMorphWeights.I 0,
       smoothStep st.smoothingFactor st.currentMorphWeights.U 0,
       smoothStep st.smoothingFactor st.currentMorphWeights.E 0,
       smoothStep st.smoothingFactor (smoothStep st.smoothingFactor st.currentMorphWeights.O 0) 1,
       smoothStep st.smoothingFactor st.currentMorphWeights.neutral 0⟩ ∧
    (playPhoneme st "neutral").currentMorphWeights =
      ⟨smoothStep st.smoothingFactor st.currentMorphWeights.A 0,
       smoothStep st.smoothingFactor st.currentMorphWeights.I 0,
       smoothStep st.smoothingFactor st.currentMorphWeights.U 0,
       smoothStep st.smoothingFactor st.currentMorphWeights.E 0,
       smoothStep st.smoothingFactor st.currentMorphWeights.O 0,
       smoothStep st.smoothingFactor st.currentMorphWeights.neutral 1⟩ := by
  refine ⟨?_, ?_, ?_, ?_, ?_, ?_⟩ <;>
    (norm_num [playPhoneme, setMorphWeight, getMorphWeight, clamp01, smoothStep]; try rfl)

lemma applyLipOps_inv (ops : List LipOp) :
    ∀ {st : LipSyncState}, LipInv st → LipInv (applyLipOps st ops) := by
  induction ops with
  | nil => intro st h; exact h
  | cons op rest ih => intro st h; exact ih (applyLipOp_inv op h)

/-- C2: for volume in [0,1], `updateFromVolume` gives channel `A` the target
`min(1, volume*2)`, gives `neutral` the target `max(0, 1 - mouthOpenness)`,
updates both stored weights by exactly one exponential-smoothing step, and
leaves the other channels untouched. -/
theorem updateFromVolume_smoothing (st : LipSyncState) (volume : ℚ)
    (h0 : 0 ≤ volume) (_h1 : volume ≤ 1) :
    (updateFromVolume st volume).currentMorphWeights =
      { st.currentMorphWeights with
        A := smoothStep st.smoothingFactor st.currentMorphWeights.A (min 1 (volume * 2)),
        neutral := smoothStep st.smoothingFactor st.currentMorphWeights.neutral
          (max 0 (1 - min 1 (volume * 2))) } := by
  have hm0 : 0 ≤ min 1 (volume * 2) := le_min (by norm_num) (by positivity)
  have hm1 : min 1 (volume * 2) ≤ 1 := min_le_left _ _
  have hn1 : max 0 (1 - min 1 (volume * 2)) ≤ 1 :=
    max_le (by norm_num) (by linarith)
  have hc2 : clamp01 (1 - min 1 (volume * 2)) = 1 - min 1 (volume * 2) :=
    clamp01_eq_self (by linarith) (by linarith)
  norm_num [updateFromVolume, setMorphWeight, getMorphWeight,
    clamp01_eq_self hm0 hm1, clamp01_eq_self (le_max_left 0 _) hn1, hc2]

/-- C2 witness at volume 1/2 from the initial state. -/
theorem updateFromVolume_smoothing_witness :
    (0 : ℚ) ≤ 1/2 ∧ (1/2 : ℚ) ≤ 1 ∧
    (updateFromVolume initialLipSyncState (1/2)).currentMorphWeights =
      { initialLipSyncState.currentMorphWeights with
        A := smoothStep initialLipSyncState.smoothingFactor
          initialLipSyncState.currentMorphWeights.A (min 1 ((1/2) * 2)),
        neutral := smoothStep initialLipSyncState.smoothingFactor
          initialLipSyncState.currentMorphWeights.neutral (max 0 (1 - min 1 ((1/2) * 2))) } :=
  ⟨by norm_num, by norm_num,
   updateFromVolume_smoothing initialLipSyncState (1/2) (by norm_num) (by norm_num)⟩

/-- All five band energies lie in [0,1]. -/
def BandsIn01 (b : FrequencyBands) : Prop :=
  (0 ≤ b.O ∧ b.O ≤ 1) ∧ (0 ≤ b.A ∧ b.A ≤ 1) ∧ (0 ≤ b.E ∧ b.E ≤ 1) ∧
  (0 ≤ b.I ∧ b.I ≤ 1) ∧ (0 ≤ b.U ∧ b.U ≤ 1)

/-- C3: for bands in [0,1]^5, `updateFromFrequencyBands` gives each phoneme
channel the target `max(0, band - 0.1)` and `neutral` the target
`max(0, 1 - totalEnergy*2)` with `totalEnergy` the mean of the five bands,
each committed through one exponential-smoothing step. -/
theorem updateFromFrequencyBands_smoothing (st : LipSyncState) (bands : FrequencyBands)
    (hb : BandsIn01 bands) :
    (updateFromFrequencyBands st bands).currentMorphWeights =
      ⟨smoothStep st.smoothingFactor st.currentMorphWeights.A (max 0 (bands.A - 0.1)),
       smoothStep st.smoothingFactor st.currentMorphWeights.I (max 0 (bands.I - 0.1)),
       smoothStep st.smoothingFactor st.currentMorphWeights.U (max 0 (bands.U - 0.1)),
       smoothStep st.smoothingFactor st.currentMorphWeights.E (max 0 (bands.E - 0.1)),
       smoothStep st.smoothingFactor st.currentMorphWeights.O (max 0 (bands.O - 0.1)),
       smoothStep st.smoothingFactor st.currentMorphWeights.neutral
         (max 0 (1 - (bands.O + bands.A + bands.E + bands.I + bands.U) / 5 * 2))⟩ := by
  obtain ⟨hO, hA, hE, hI, hU⟩ := hb
  have key : ∀ x : ℚ, x ≤ 1 → clamp01 (max 0 (x - 1/10)) = max 0 (x - 1/10) := by
    intro x hx
    exact clamp01_eq_self (le_max_left 0 _) (max_le (by norm_num) (by linarith))
  have hn1 : max 0 (1 - (bands.O + bands.A + bands.E + bands.I + bands.U) / 5 * 2) ≤ 1 := by
    have : 0 ≤ (bands.O + bands.A + bands.E + bands.I + bands.U) / 5 * 2 := by
      have := hO.1; have := hA.1; have := hE.1; have := hI.1; have := hU.1
      positivity
    exact max_le (by norm_num) (by linarith)
  norm_num [updateFromFrequencyBands, setMorphWeight, getMorphWeight,
    key bands.O hO.2, key bands.A hA.2, key bands.E hE.2, key bands.I hI.2,
    key bands.U hU.2, clamp01_eq_self (le_max_left 0 _) hn1]

/-- C3 witness at a concrete set of bands from the initial state. -/
theorem updateFromFrequencyBands_smoothing_witness :
    BandsIn01 ⟨1/2, 1, 0, 1/4, 3/4⟩ ∧
    (updateFromFrequencyBands initialLipSyncState ⟨1/2, 1, 0, 1/4, 3/4⟩).currentMorphWeights =
      ⟨27/200, 9/400, 39/400, 0, 3/50, 17/20⟩ := by
  constructor
  · norm_num [BandsIn01]
  · have h := updateFromFrequencyBands_smoothing initialLipSyncState ⟨1/2, 1, 0, 1/4, 3/4⟩
      (by norm_num [BandsIn01])
    rw [h]
    norm_num [smoothStep, initialLipSyncState, initialMorphWeights]

/-- C4: under any sequence of `setMorphWeight`, `updateFromVolume`,
`updateFromFrequencyBands`, `playPhoneme` and `reset` calls with arbitrary
(unbounded, possibly negative) arguments, every stored morph weight stays in
[0,1], provided the smoothing factor lies in [0,1] and the initial weights do. -/
theorem lipSync_weights_stay_in01 (ops : List LipOp) (st : LipSyncState)
    (hs0 : 0 ≤ st.smoothingFactor) (hs1 : st.smoothingFactor ≤ 1)
    (hw : WeightsIn01 st.currentMorphWeights) :
    WeightsIn01 (applyLipOps st ops).currentMorphWeights :=
  (applyLipOps_inv ops ⟨⟨hs0, hs1⟩, hw⟩).2

/-- C4 witness: a concrete call sequence with out-of-range and negative
arguments starting from the initial state. -/
theorem lipSync_weights_stay_in01_witness :
    (0 ≤ initialLipSyncState.smoothingFactor ∧ initialLipSyncState.smoothingFactor ≤ 1) ∧
    WeightsIn01 initialLipSyncState.currentMorphWeights ∧
    WeightsIn01 (applyLipOps initialLipSyncState
      [.play "A", .fromVolume 7, .setW "A" (-5), .fromBands ⟨3, -1, 1/2, 0, 7⟩,
       .doReset, .setW "neutral" 9, .fromVolume (-2)]).currentMorphWeights :=
  ⟨⟨by norm_num [initialLipSyncState], by norm_num [initialLipSyncState]⟩,
   by norm_num [WeightsIn01, initialLipSyncState, initialMorphWeights],
   lipSync_weights_stay_in01 _ _ (by norm_num [initialLipSyncState])
     (by norm_num [initialLipSyncState])
     (by norm_num [WeightsIn01, initialLipSyncState, initialMorphWeights])⟩

/-! ## Expression Engine (ExpressionController, src/lib/expressionController.ts) -/

/-- The `ExpressionType` union. -/
inductive ExpressionType where
  | smile
  | sad
  | neutral
  | surprised
  | angry
  deriving DecidableEq, Repr

/-- The `ExpressionState` record. -/
structure ExpressionState where
  type : ExpressionType
  intensity : ℚ
  eyelidClosedness : ℚ
  eyebrowHeight : ℚ
  deriving DecidableEq, Repr

/-- The initial `currentExpression` / the value installed by `reset()`. -/
def initialExpressionState : ExpressionState := ⟨.neutral, 0, 0, 0.5⟩

/-- `ExpressionController.getEyelidClosednessForExpression`. -/
def getEyelidClosednessForExpression : ExpressionType → ℚ
  | .smile => 0.3
  | .sad => 0.2
  | .surprised => 0.0
  | .angry => 0.4
  | .neutral => 0

/-- `ExpressionController.getEyebrowHeightForExpression`. -/
def getEyebrowHeightForExpression : ExpressionType → ℚ
  | .smile => 0.6
  | .sad => 0.2
  | .surprised => 0.9
  | .angry => 0.3
  | .neutral => 0.5

/-- The frame budget of `animateToTarget`: `Math.max(1, Math.floor(duration / 16))`. -/
def animationFrames (duration : ℚ) : ℤ := max 1 ⌊duration / 16⌋

/-- One frame of the interpolation loop: linear blend of the loop's captured
start expression toward the target at the given progress. -/
def interpolateExpression (start target : ExpressionState) (progress : ℚ) : ExpressionState :=
  { type := target.type,
    intensity := start.intensity + (target.intensity - start.intensity) * progress,
    eyelidClosedness :=
      start.eyelidClosedness + (target.eyelidClosedness - start.eyelidClosedness) * progress,
    eyebrowHeight :=
      start.eyebrowHeight + (target.eyebrowHeight - start.eyebrowHeight) * progress }

/-- `ExpressionController.animateToTarget`: run the frame loop to completion;
frame `k+1` overwrites `currentExpression` with the blend at progress
`min 1 ((k+1)/frames)`. Returns the final `currentExpression`. -/
def animateToTarget (current target : ExpressionState) (duration : ℚ) : ExpressionState :=
  (List.range (animationFrames duration).toNat).foldl
    (fun _ (k : ℕ) => interpolateExpression current target
      (min 1 (((k : ℚ) + 1) / ((animationFrames duration : ℤ) : ℚ))))
    current

/-- `ExpressionController.setExpression`: build the target from the per-type
lookup tables (intensity clamped to [0,1]) and run the animation loop.
Returns (final `currentExpression`, `targetExpression`). -/
def setExpression (current : ExpressionState) (t : ExpressionType)
    (intensity duration : ℚ) : ExpressionState × ExpressionState :=
  let target : ExpressionState :=
    { type := t,
      intensity := clamp01 intensity,
      eyelidClosedness := getEyelidClosednessForExpression t,
      eyebrowHeight := getEyebrowHeightForExpression t }
  (animateToTarget current target duration, target)

lemma animateToTarget_final (current target : ExpressionState) (duration : ℚ) :
    animateToTarget current target duration = interpolateExpression current target 1 := by
  unfold animateToTarget
  have hpos : 0 < animationFrames duration :=
    lt_of_lt_of_le one_pos (le_max_left 1 _)
  obtain ⟨n, hn⟩ : ∃ n : ℕ, (animationFrames duration).toNat = n + 1 := by
    refine ⟨(animationFrames duration).toNat - 1, ?_⟩
    omega
  have hfr : (((animationFrames duration : ℤ) : ℚ)) = ((n : ℚ) + 1) := by
    rw [show (animationFrames duration : ℤ) = ((n : ℤ) + 1) by omega]
    push_cast
    ring
  rw [hn, hfr, List.range_succ, List.foldl_append, List.foldl_cons, List.foldl_nil]
  have hone : min 1 (((n : ℚ) + 1) / ((n : ℚ) + 1)) = 1 := by
    rw [div_self (by positivity)]
    norm_num
  rw [hone]

/-- C5: `setExpression('smile', 1, 0)` still runs `max(1, floor(0/16)) = 1`
frame, and after the loop the current expression equals the lookup-table
target: intensity 1 (clamped), eyelidClosedness 0.3, eyebrowHeight 0.6. -/
theorem setExpression_smile_converges (current : ExpressionState) :
    animationFrames 0 = 1 ∧
    (setExpression current .smile 1 0).1 =
      ⟨.smile, 1, 0.3, 0.6⟩ ∧
    (setExpression current .smile 1 0).2 =
      ⟨.smile, 1, 0.3, 0.6⟩ := by
  refine ⟨by norm_num [animationFrames], ?_, ?_⟩
  · show animateToTarget current _ 0 = _
    rw [animateToTarget_final]
    norm_num [interpolateExpression, getEyelidClosednessForExpression,
      getEyebrowHeightForExpression, clamp01]
  · norm_num [setExpression, getEyelidClosednessForExpression,
      getEyebrowHeightForExpression, clamp01]

/-! ## Emotion Classifier (EmotionAnalyzer, src/unnamed/part_001) -/

/-- The `EmotionType` union. -/
inductive EmotionType where
  | positive
  | negative
  | neutralE
  deriving DecidableEq, Repr

/-- The `EmotionScore` record. -/
structure EmotionScore where
  type : EmotionType
  score : ℚ
  intensity : ℚ
  deriving DecidableEq, Repr

/-- `String.prototype.includes`: does `w` occur as a contiguous substring? -/
def charsIncluded (w : List Char) : List Char → Bool
  | [] => w.isEmpty
  | c :: ts => w.isPrefixOf (c :: ts) || charsIncluded w ts

/-- `text.includes(word)`. -/
def strIncludes (text word : String) : Bool :=
  charsIncluded word.data text.data

/-- `text.toLowerCase()` (character-wise lowering). -/
def strToLower (text : String) : String :=
  ⟨text.data.map Char.toLower⟩

/-- The `positiveWords` lexicon, verbatim (a JS `Set`, so duplicates collapse:
modelled by `eraseDups` at use sites). -/
def positiveWords : List String :=
  ["ありがとう", "すばらしい", "素晴らしい", "良い", "いい", "楽しい", "嬉しい",
   "喜ぶ", "笑う", "面白い", "おもしろい", "最高", "最良", "優秀", "素敵",
   "かっこいい", "美しい", "綺麗", "きれい", "すっきり", "さっぱり", "爽やか",
   "幸せ", "幸福", "満足", "満足度", "嬉しい", "うれしい", "嬉嬉", "ワクワク",
   "わくわく", "ルンルン", "るんるん", "やった", "やったー", "よかった",
   "良かった", "感激", "感動", "愛する", "愛している", "愛してる", "大好き",
   "だいすき", "好きです", "すきです", "推しメン", "おいしい", "美味しい",
   "おいしい", "快適", "めでたい", "めでたし", "おめでとう", "おめでとうございます"]

/-- The `negativeWords` lexicon, verbatim. -/
def negativeWords : List String :=
  ["つらい", "辛い", "苦しい", "悲しい", "悲しむ", "泣く", "怒る", "むかつく",
   "むかっく", "腹が立つ", "怖い", "恐ろしい", "恐怖", "嫌い", "きらい", "嫌だ",
   "嫌です", "まずい", "まずい", "汚い", "きたない", "きたなーい", "うるさい",
   "うるさーい", "五月蝿い", "退屈", "つまらない", "つまらん", "つまんない",
   "つまんない", "失敗", "失敗した", "しくった", "しくじった", "最悪",
   "さいあく", "最低", "さいてい", "災い", "わざわい", "不幸", "ふこう",
   "不幸せ", "ふしあわせ", "不満", "ふまん", "不満足", "ふまんぞく", "不安",
   "ふあん", "うんざり", "うんざりだ", "げんなり", "げんなりする", "呆然",
   "ぼうぜん", "痛い", "いたい", "病気", "びょうき", "患う", "わずらう",
   "病む", "やむ", "くたびれる", "疲れる", "つかれる", "しんどい", "だるい",
   "ぐったり", "へとへと", "ぼろぼろ"]

/-- The `intensifiers` lexicon, verbatim. -/
def intensifiers : List String :=
  ["とても", "本当に", "ほんとに", "ほんとうに", "とっても", "めちゃめちゃ",
   "めっちゃ", "ちょっと", "ちょいと", "かなり", "非常に", "ひじょうに",
   "すごく", "すごーく", "すごい", "ものすごく", "物凄く", "ものすごい",
   "物凄い", "もの凄い", "たいして", "大して", "かったが", "甚だしく",
   "はなはだしく", "もう本当に", "もう本当", "もう", "なんだか", "なんか",
   "ちょっと"]

/-- The `mitigators` lexicon, verbatim. -/
def mitigators : List String :=
  ["ちょっと", "ちょいと", "少し", "すこし", "やや", "まあ", "まあまあ",
   "まあまあまあ", "わりと", "わりには", "割りと", "そこそこ", "ほどほど",
   "まあまあ"]

/-- Count the lexicon entries (one per distinct `Set` member) that occur as
substrings of the lowered text. -/
def countLexiconHits (lexicon : List String) (lowerText : String) : ℕ :=
  (lexicon.eraseDups.filter (fun w => strIncludes lowerText w)).length

/-- The intensity accumulator: +0.1 capped at 1 per intensifier hit, then
-0.1 floored at 0.3 per mitigator hit, starting at 1. -/
def analyzeIntensity (lowerText : String) : ℚ :=
  let i1 := intensifiers.eraseDups.foldl
    (fun acc w => if strIncludes lowerText w then min 1 (acc + 0.1) else acc) 1
  mitigators.eraseDups.foldl
    (fun acc w => if strIncludes lowerText w then max 0.3 (acc - 0.1) else acc) i1

/-- `EmotionAnalyzer.analyze`. -/
def analyze (text : String) : EmotionScore :=
  let lowerText := strToLower text
  let positiveCount := countLexiconHits positiveWords lowerText
  let negativeCount := countLexiconHits negativeWords lowerText
  let intensity := analyzeIntensity lowerText
  if positiveCount > negativeCount ∧ positiveCount > 0 then
    { type := .positive,
      score := min 1 ((positiveCount : ℚ) / ((positiveCount : ℚ) + (negativeCount : ℚ) + 1)),
      intensity := intensity }
  else if negativeCount > positiveCount ∧ negativeCount > 0 then
    { type := .negative,
      score := min 1 ((negativeCount : ℚ) / ((positiveCount : ℚ) + (negativeCount : ℚ) + 1)),
      intensity := intensity }
  else
    { type := .neutralE, score := 0.5, intensity := 0.5 }

/-- C6: whenever the positive and negative hit counts are equal — in
particular when both are zero, as for the empty string — `analyze` returns
exactly `{type: neutral, score: 0.5, intensity: 0.5}`, regardless of how many
intensifier or mitigator substrings occur in the text. -/
theorem analyze_tie_is_neutral (text : String)
    (h : countLexiconHits positiveWords (strToLower text) =
         countLexiconHits negativeWords (strToLower text)) :
    analyze text = { type := .neutralE, score := 0.5, intensity := 0.5 } := by
  unfold analyze
  simp only []
  rw [h]
  simp

/-- C6 witness: the empty string has zero hits in both lexicons (and the
theorem then evaluates `analyze ""` to the neutral score). -/
theorem analyze_tie_is_neutral_witness :
    countLexiconHits positiveWords (strToLower "") =
      countLexiconHits negativeWords (strToLower "") ∧
    analyze "" = { type := .neutralE, score := 0.5, intensity := 0.5 } :=
  ⟨by decide, analyze_tie_is_neutral "" (by decide)⟩

/-! ## Motion Engine (MotionController, src/lib/interviewManager.ts) -/

/-- The exact rational value of the IEEE-754 double `Math.PI`
(884279719003555 · 2⁻⁴⁸). -/
def jsMathPI : ℚ := 884279719003555 / 281474976710656

/-- A `THREE.Euler` rotation (x = pitch, y = yaw, z = roll); JS numbers
modelled as rationals. -/
structure Euler where
  x : ℚ
  y : ℚ
  z : ℚ
  deriving DecidableEq, Repr

/-- The quadratic ease-in-out progress curve used by `animateHeadRotation`:
`eased = p < 0.5 ? 2p² : -1 + (4 - 2p)p`. -/
def easedProgress (p : ℚ) : ℚ :=
  if p < 0.5 then 2 * p * p else -1 + (4 - 2 * p) * p

/-- The rotation written on one animation frame: linear blend from `start` to
`target` at the eased progress. -/
def easedRotation (start target : Euler) (eased : ℚ) : Euler :=
  ⟨start.x + (target.x - start.x) * eased,
   start.y + (target.y - start.y) * eased,
   start.z + (target.z - start.z) * eased⟩

/-- The rotations written by the frames of one cycle of
`animateHeadRotation` (frame counts run 1, …, totalFrames; the progress of
frame `k` is `k / totalFrames`). -/
def headCycleTrace (start target : Euler) (totalFrames : ℕ) : List Euler :=
  (List.range totalFrames).map
    (fun (k : ℕ) => easedRotation start target (easedProgress (((k : ℚ) + 1) / (totalFrames : ℚ))))

/-- The bone rotation left behind by `animateHeadRotation` after the given
number of remaining cycles: each cycle writes its frames in order, and after
the final cycle's frame budget the code copies `start` back. -/
def headCyclesFinal (start target : Euler) (totalFrames : ℕ) : ℕ → Euler → Euler
  | 0, rot => rot
  | n + 1, rot =>
      let rotAfter := (headCycleTrace start target totalFrames).foldl (fun _ r => r) rot
      match n with
      | 0 => start
      | m + 1 => headCyclesFinal start target totalFrames (m + 1) rotAfter

/-- The observable behaviour of one `animateHeadRotation` invocation. -/
structure HeadMotionRun where
  framesPerCycle : ℤ
  repeats : ℕ
  interCycleDelayMs : ℚ
  cycleTrace : List Euler
  finalRotation : Euler

/-- `MotionController.animateHeadRotation(bone, start, target, duration, repeat)`:
`totalFrames = Math.floor(duration / 16)` per cycle, 100 ms `setTimeout`
between cycles. -/
def animateHeadRotation (start target : Euler) (duration : ℚ) (repeats : ℕ) : HeadMotionRun :=
  { framesPerCycle := ⌊duration / 16⌋,
    repeats := repeats,
    interCycleDelayMs := 100,
    cycleTrace := headCycleTrace start target ⌊duration / 16⌋.toNat,
    finalRotation := headCyclesFinal start target ⌊duration / 16⌋.toNat repeats start }

/-- `MotionController.playNod(intensity)` with a resolved head bone whose
rotation at invocation time is `headRotation`: target pitch `π/8·intensity`,
duration `600·(1/intensity)` ms, 2 repeats. -/
def playNod (intensity : ℚ) (headRotation : Euler) : HeadMotionRun :=
  animateHeadRotation headRotation
    ⟨jsMathPI / 8 * intensity, 0, 0⟩
    (600 * (1 / intensity)) 2

/-- `MotionController.playMotion('nod', intensity)` (head bone resolved):
clamps the intensity to [0,1] and delegates to `playNod`. -/
def playMotionNod (intensity : ℚ) (headRotation : Euler) : HeadMotionRun :=
  playNod (clamp01 intensity) headRotation

/-- C7: for every intensity `i ∈ (0,1]` and any initial head rotation,
`playMotion('nod', i)` runs 2 repeat cycles of `⌊(600/i)/16⌋` frames each
with a 100 ms wait between cycles, each frame writing the quadratic
ease-in-out blend from the invocation-time rotation toward pitch `π/8·i`,
and the final rotation is restored exactly to the invocation-time value. -/
theorem playMotionNod_restores (i : ℚ) (h0 : 0 < i) (h1 : i ≤ 1) (rot : Euler) :
    (playMotionNod i rot).repeats = 2 ∧
    (playMotionNod i rot).framesPerCycle = ⌊(600 / i) / 16⌋ ∧
    (playMotionNod i rot).interCycleDelayMs = 100 ∧
    (playMotionNod i rot).cycleTrace =
      (List.range ⌊(600 / i) / 16⌋.toNat).map
        (fun (k : ℕ) => easedRotation rot ⟨jsMathPI / 8 * i, 0, 0⟩
          (easedProgress (((k : ℚ) + 1) / (⌊(600 / i) / 16⌋.toNat : ℚ)))) ∧
    (playMotionNod i rot).finalRotation = rot := by
  have hci : clamp01 i = i := clamp01_eq_self (le_of_lt h0) h1
  have hdur : 600 * (1 / i) = 600 / i := by ring
  unfold playMotionNod playNod animateHeadRotation
  rw [hci, hdur]
  refine ⟨rfl, rfl, rfl, rfl, ?_⟩
  unfold headCyclesFinal headCyclesFinal
  rfl

/-- C7 witness at intensity 1 and head rotation (0, 0, 0): 37 frames per
cycle and exact restoration. -/
theorem playMotionNod_restores_witness :
    (0 : ℚ) < 1 ∧ (1 : ℚ) ≤ 1 ∧
    (playMotionNod 1 ⟨0, 0, 0⟩).repeats = 2 ∧
    (playMotionNod 1 ⟨0, 0, 0⟩).framesPerCycle = 37 ∧
    (playMotionNod 1 ⟨0, 0, 0⟩).finalRotation = ⟨0, 0, 0⟩ := by
  have h := playMotionNod_restores 1 (by norm_num) (by norm_num) ⟨0, 0, 0⟩
  refine ⟨by norm_num, by norm_num, h.1, ?_, h.2.2.2.2⟩
  rw [h.2.1]
  norm_num

/-! ## Actuator Binder (LipSyncManager.applyMorphWeights and
ExpressionController.applyExpression) -/

/-- A mesh's `morphTargetDictionary`, as an association list from channel
name to influence-buffer index. -/
def dictLookup : List (String × ℕ) → String → Option ℕ
  | [], _ => none
  | (k, v) :: rest, name => if k = name then some v else dictLookup rest name

/-- `Object.entries(this.currentMorphWeights)`, in insertion order. -/
def morphEntries (w : MorphTargets) : List (String × ℚ) :=
  [("A", w.A), ("I", w.I), ("U", w.U), ("E", w.E), ("O", w.O), ("neutral", w.neutral)]

/-- The influence-buffer writes `applyMorphWeights` performs on one mesh:
for each channel present in the dictionary (`phoneme in dict` and the index
defined), write the weight at the recorded index. -/
def applyMorphWeightsMesh (w : MorphTargets) (dict : List (String × ℕ)) : List (ℕ × ℚ) :=
  (morphEntries w).filterMap
    (fun pw => (dictLookup dict pw.1).map (fun i => (i, pw.2)))

/-- `LipSyncManager.applyMorphWeights`: no-op on a null model, else the
per-mesh write lists. -/
def applyMorphWeights (model : Option (List (List (String × ℕ)))) (w : MorphTargets) :
    List (List (ℕ × ℚ)) :=
  match model with
  | none => []
  | some meshes => meshes.map (applyMorphWeightsMesh w)

/-- JavaScript `a || b` on optional indices: `undefined` and `0` are falsy. -/
def jsOrIndex (a b : Option ℕ) : Option ℕ :=
  match a with
  | some n => if n = 0 then b else some n
  | none => b

/-- A left-associated `dict[a1] || dict[a2] || …` alias chain. -/
def resolveAliases (dict : List (String × ℕ)) (aliases : List String) : Option ℕ :=
  aliases.foldl (fun acc name => jsOrIndex acc (dictLookup dict name)) none

/-- One expression channel of `applyExpression`: its alias chain and the
value written for the current expression state. -/
structure ExpressionChannel where
  aliases : List String
  value : ExpressionState → ℚ

/-- The six channels of `applyExpression`, with their alias chains and value
formulas, verbatim from the source. -/
def expressionChannels : List ExpressionChannel :=
  [⟨["smile", "Smile", "Smile_L", "Smile_R"],
      fun e => min 1 (if e.type = .smile then e.intensity * 0.8 else e.intensity * 0.2)⟩,
   ⟨["sad", "Sad"], fun e => min 1 (if e.type = .sad then e.intensity else 0)⟩,
   ⟨["surprised", "Surprised"], fun e => min 1 (if e.type = .surprised then e.intensity * 0.7 else 0)⟩,
   ⟨["angry", "Angry"], fun e => min 1 (if e.type = .angry then e.intensity * 0.6 else 0)⟩,
   ⟨["Blink", "blink"], fun e => min 1 e.eyelidClosedness⟩,
   ⟨["Brows_Up", "BrowsUp"], fun e => min 1 e.eyebrowHeight⟩]

/-- The influence-buffer writes `applyExpression` performs on one mesh: for
each channel whose `||`-chain resolves (`!== undefined`), write the channel
value at the resolved index. -/
def applyExpressionMesh (e : ExpressionState) (dict : List (String × ℕ)) : List (ℕ × ℚ) :=
  expressionChannels.filterMap
    (fun ch => (resolveAliases dict ch.aliases).map (fun i => (i, ch.value e)))

/-- `ExpressionController.applyExpression`: no-op on a null model, else the
per-mesh write lists. -/
def applyExpression (model : Option (List (List (String × ℕ)))) (e : ExpressionState) :
    List (List (ℕ × ℚ)) :=
  match model with
  | none => []
  | some meshes => meshes.map (applyExpressionMesh e)

lemma dictLookup_mem {dict : List (String × ℕ)} {name : String} {i : ℕ}
    (h : dictLookup dict name = some i) : (name, i) ∈ dict := by
  induction dict with
  | nil => simp [dictLookup] at h
  | cons p rest ih =>
      obtain ⟨k, v⟩ := p
      by_cases hk : k = name
      · subst hk
        simp [dictLookup] at h
        simp [h]
      · simp [dictLookup, hk] at h
        exact List.mem_cons_of_mem _ (ih h)

lemma resolveAliases_some {dict : List (String × ℕ)} {aliases : List String} {i : ℕ}
    (h : resolveAliases dict aliases = some i) :
    ∃ a ∈ aliases, dictLookup dict a = some i := by
  unfold resolveAliases at h
  suffices key : ∀ (as : List String) (acc : Option ℕ),
      as.foldl (fun acc name => jsOrIndex acc (dictLookup dict name)) acc = some i →
      (∃ a ∈ as, dictLookup dict a = some i) ∨ acc = some i by
    rcases key aliases none h with ⟨a, ha, hl⟩ | hnone
    · exact ⟨a, ha, hl⟩
    · exact absurd hnone (by simp)
  intro as
  induction as with
  | nil => intro acc h; exact Or.inr h
  | cons a rest ih =>
      intro acc h
      rcases ih (jsOrIndex acc (dictLookup dict a)) h with ⟨b, hb, hl⟩ | hacc
      · exact Or.inl ⟨b, List.mem_cons_of_mem _ hb, hl⟩
      · unfold jsOrIndex at hacc
        rcases hn : acc with _ | n
        · rw [hn] at hacc
          exact Or.inl ⟨a, List.mem_cons_self a rest, hacc⟩
        · rw [hn] at hacc
          by_cases h0 : n = 0
          · simp only [h0, if_pos rfl] at hacc
            exact Or.inl ⟨a, List.mem_cons_self a rest, hacc⟩
          · simp only [if_neg h0] at hacc
            exact Or.inr hacc

/-- C8 counterexample evidence: a mesh whose dictionary holds the canonical
channel `smile` at influence index 0 is a "present" channel, yet
`applyExpression` performs no write on that mesh at all. -/
theorem applyExpression_drops_present_smile :
    dictLookup [("smile", 0)] "smile" = some 0 ∧
    applyExpressionMesh ⟨.smile, 1, 0.3, 0.6⟩ [("smile", 0)] = [] := by
  constructor
  · rfl
  · rfl

/-- C8 amended: the actuator-apply step never resolves an undefined index
and is a no-op on a null model; `applyMorphWeights` writes exactly the
channels present in a mesh's dictionary (all present ones, absent ones
silently skipped), while `applyExpression` writes only at indices its
`||`-alias-chain resolves — channels absent from the mesh are skipped, but so
is a present channel whose chain collapses to `undefined` (index 0 with no
later alias). -/
theorem apply_actuators_safe :
    (∀ w : MorphTargets, applyMorphWeights none w = []) ∧
    (∀ e : ExpressionState, applyExpression none e = []) ∧
    (∀ (w : MorphTargets) (dict : List (String × ℕ)) (iv : ℕ × ℚ),
       iv ∈ applyMorphWeightsMesh w dict → ∃ name, dictLookup dict name = some iv.1) ∧
    (∀ (w : MorphTargets) (dict : List (String × ℕ)) (name : String) (val : ℚ) (i : ℕ),
       (name, val) ∈ morphEntries w → dictLookup dict name = some i →
       (i, val) ∈ applyMorphWeightsMesh w dict) ∧
    (∀ (e : ExpressionState) (dict : List (String × ℕ)) (iv : ℕ × ℚ),
       iv ∈ applyExpressionMesh e dict →
       ∃ name, dictLookup dict name = some iv.1) := by
  refine ⟨fun _ => rfl, fun _ => rfl, ?_, ?_, ?_⟩
  · intro w dict iv hiv
    obtain ⟨pw, _, hmap⟩ := List.mem_filterMap.mp hiv
    obtain ⟨j, hj, hiv'⟩ := Option.map_eq_some'.mp hmap
    exact ⟨pw.1, by rw [hj, ← hiv']⟩
  · intro w dict name val i hmem hl
    exact List.mem_filterMap.mpr ⟨(name, val), hmem, by rw [hl]; rfl⟩
  · intro e dict iv hiv
    obtain ⟨ch, _, hmap⟩ := List.mem_filterMap.mp hiv
    obtain ⟨j, hj, hiv'⟩ := Option.map_eq_some'.mp hmap
    obtain ⟨a, _, hl⟩ := resolveAliases_some hj
    exact ⟨a, by rw [hl, ← hiv']⟩

/-- C8 witness: a present channel (`A` at index 4) is written by
`applyMorphWeights`. -/
theorem apply_actuators_safe_witness :
    ("A", (1 : ℚ)) ∈ morphEntries ⟨1, 0, 0, 0, 0, 0⟩ ∧
    dictLookup [("A", 4)] "A" = some 4 ∧
    (4, (1 : ℚ)) ∈ applyMorphWeightsMesh ⟨1, 0, 0, 0, 0, 0⟩ [("A", 4)] :=
  ⟨by simp [morphEntries], by rfl,
   apply_actuators_safe.2.2.2.1 ⟨1, 0, 0, 0, 0, 0⟩ [("A", 4)] "A" 1 4
     (by simp [morphEntries]) (by rfl)⟩

/-- The canonical name and the remaining (alternative) aliases of each of
the six expression channels. -/
def canonicalExpressionAliases : List (String × List String) :=
  [("smile", ["Smile", "Smile_L", "Smile_R"]),
   ("sad", ["Sad"]),
   ("surprised", ["Surprised"]),
   ("angry", ["Angry"]),
   ("Blink", ["blink"]),
   ("Brows_Up", ["BrowsUp"])]

lemma foldl_jsOr_all_none {dict : List (String × ℕ)} :
    ∀ (as : List String), (∀ a ∈ as, dictLookup dict a = none) →
    as.foldl (fun acc name => jsOrIndex acc (dictLookup dict name)) none = none := by
  intro as
  induction as with
  | nil => intro _; rfl
  | cons a rest ih =>
      intro h
      have ha := h a (List.mem_cons_self a rest)
      simp only [List.foldl_cons, ha]
      exact ih (fun b hb => h b (List.mem_cons_of_mem _ hb))

lemma resolveAliases_zero_head_none {dict : List (String × ℕ)}
    {canon : String} {alts : List String}
    (hc : dictLookup dict canon = some 0)
    (halts : ∀ a ∈ alts, dictLookup dict a = none)
    (hne : alts ≠ []) :
    resolveAliases dict (canon :: alts) = none := by
  unfold resolveAliases
  simp only [List.foldl_cons, hc]
  show alts.foldl (fun acc name => jsOrIndex acc (dictLookup dict name))
    (jsOrIndex none (some 0)) = none
  have : jsOrIndex none (some 0) = some 0 := rfl
  rw [this]
  cases alts with
  | nil => exact absurd rfl hne
  | cons a rest =>
      have ha := halts a (List.mem_cons_self a rest)
      simp only [List.foldl_cons]
      have hstep : jsOrIndex (some 0) (dictLookup dict a) = none := by
        rw [ha]; rfl
      rw [hstep]
      exact foldl_jsOr_all_none rest (fun b hb => halts b (List.mem_cons_of_mem _ hb))

lemma resolveAliases_zero_canon {dict : List (String × ℕ)} {canon : String}
    (honly : ∀ p ∈ dict, p.1 = canon ∨ p.2 ≠ 0)
    {as : List String} (h : resolveAliases dict as = some 0) : canon ∈ as := by
  obtain ⟨a, ha, hl⟩ := resolveAliases_some h
  rcases honly _ (dictLookup_mem hl) with h1 | h2
  · have h1' : a = canon := h1
    subst h1'
    exact ha
  · exact absurd rfl h2

/-- C10: on a mesh whose dictionary maps a canonical expression channel to
influence index 0, defines none of that channel's alternative aliases, and
holds no other entry at index 0, the `||`-alias chain resolves the channel to
`undefined` — index 0 is indistinguishable from an absent channel — and
`applyExpression` performs no write at index 0 on that mesh. -/
theorem applyExpression_skips_index_zero (dict : List (String × ℕ)) (e : ExpressionState)
    (canon : String) (alts : List String)
    (hch : (canon, alts) ∈ canonicalExpressionAliases)
    (hc : dictLookup dict canon = some 0)
    (halts : ∀ a ∈ alts, dictLookup dict a = none)
    (honly : ∀ p ∈ dict, p.1 = canon ∨ p.2 ≠ 0) :
    resolveAliases dict (canon :: alts) = none ∧
    ∀ iv ∈ applyExpressionMesh e dict, iv.1 ≠ 0 := by
  have hne : alts ≠ [] := by
    fin_cases hch <;> simp
  have hnone : resolveAliases dict (canon :: alts) = none :=
    resolveAliases_zero_head_none hc halts hne
  refine ⟨hnone, ?_⟩
  intro iv hiv h0
  obtain ⟨ch, hchmem, hmap⟩ := List.mem_filterMap.mp hiv
  obtain ⟨j, hj, hiv'⟩ := Option.map_eq_some'.mp hmap
  have hj1 : iv.1 = j := by rw [← hiv']
  have hjz : j = 0 := by rw [← hj1]; exact h0
  rw [hjz] at hj
  have hcanon : canon ∈ ch.aliases := resolveAliases_zero_canon honly hj
  have hmemal := List.mem_map_of_mem (fun c => c.aliases) hchmem
  have hmapeq : expressionChannels.map (fun c => c.aliases) =
      [["smile", "Smile", "Smile_L", "Smile_R"], ["sad", "Sad"],
       ["surprised", "Surprised"], ["angry", "Angry"], ["Blink", "blink"],
       ["Brows_Up", "BrowsUp"]] := rfl
  rw [hmapeq] at hmemal
  have haliases : ch.aliases = canon :: alts := by
    fin_cases hch <;>
      (simp only [List.mem_cons, List.not_mem_nil, or_false] at hmemal;
       rcases hmemal with h | h | h | h | h | h <;> simp_all)
  rw [haliases, hnone] at hj
  exact Option.noConfusion hj

/-- C10 witness: the concrete mesh `{'smile': 0}` with a full-intensity
smile expression: the chain resolves to `undefined` and nothing is written. -/
theorem applyExpression_skips_index_zero_witness :
    ("smile", ["Smile", "Smile_L", "Smile_R"]) ∈ canonicalExpressionAliases ∧
    dictLookup [("smile", 0)] "smile" = some 0 ∧
    resolveAliases [("smile", 0)] ("smile" :: ["Smile", "Smile_L", "Smile_R"]) = none ∧
    ∀ iv ∈ applyExpressionMesh ⟨.smile, 1, 3/10, 3/5⟩ [("smile", 0)], iv.1 ≠ 0 := by
  have h := applyExpression_skips_index_zero [("smile", 0)] ⟨.smile, 1, 3/10, 3/5⟩
    "smile" ["Smile", "Smile_L", "Smile_R"]
    (by decide) (by rfl)
    (by intro a ha; fin_cases ha <;> rfl)
    (by intro p hp; fin_cases hp; exact Or.inl rfl)
  exact ⟨by decide, by rfl, h.1, h.2⟩

/-! ## Signal Sampler (AudioAnalyzer, src/unnamed/part_004) -/

/-- An `AnalyserNode`, reduced to the fields the class reads. -/
structure AnalyserNode where
  fftSize : ℕ
  frequencyBinCount : ℕ
  deriving DecidableEq, Repr

/-- The mutable fields of `AudioAnalyzer`; the `AudioContext` is represented
by its sample rate, callbacks by whether one is registered. -/
structure AudioAnalyzerState where
  audioContext : Option ℕ
  analyser : Option AnalyserNode
  microphone : Bool
  animationFrameId : Option ℕ
  dataArrayLen : Option ℕ
  onVolumeChange : Bool
  onFrequencyChange : Bool
  isListening : Bool
  sampleRate : ℕ
  deriving DecidableEq, Repr

/-- A freshly constructed `AudioAnalyzer` (default sample rate 44100). -/
def initialAudioAnalyzerState : AudioAnalyzerState :=
  ⟨none, none, false, none, none, false, false, false, 44100⟩

/-- `AudioAnalyzer.initialize`: a no-op when the context already exists,
otherwise create the context (at the platform's sample rate), the analyser
(fftSize 2048, hence 1024 frequency bins) and the data array. -/
def setupAudioContext (platformSampleRate : ℕ) (s : AudioAnalyzerState) : AudioAnalyzerState :=
  if s.audioContext.isSome then s
  else
    { s with
      audioContext := some platformSampleRate,
      sampleRate := platformSampleRate,
      analyser := some ⟨2048, 2048 / 2⟩,
      dataArrayLen := some (2048 / 2) }

/-- `AudioAnalyzer.startListening`: run `initialize`, check the context,
await `getUserMedia` (its outcome passed in as `gum`), and only on success
connect the microphone, set `isListening`, register the callbacks and start
the `analyzeAudio` frame loop. Failures are rethrown (`Except.error`) and the
state mutated so far is kept, as in the JS original. -/
def startListening (s : AudioAnalyzerState) (platformSampleRate : ℕ)
    (gum : Except String Unit) (onVolume onFrequency : Bool) :
    Except String Unit × AudioAnalyzerState :=
  let s1 := setupAudioContext platformSampleRate s
  if s1.audioContext.isNone || s1.analyser.isNone then
    (.error "AudioContext not initialized", s1)
  else
    match gum with
    | .error e => (.error e, s1)
    | .ok _ =>
        let s2 := if !s1.microphone && s1.audioContext.isSome then
            { s1 with microphone := true }
          else s1
        let s3 := { s2 with
          isListening := true,
          onVolumeChange := onVolume,
          onFrequencyChange := onFrequency }
        (.ok (), if s3.isListening && s3.analyser.isSome && s3.dataArrayLen.isSome then
            { s3 with animationFrameId := some 0 }
          else s3)

/-- C9 counterexample evidence: on a fresh analyzer, a failing microphone
acquisition still performs `initialize()`'s lazy setup — the error is
propagated, but `audioContext` (and the analyser and data array) no longer
hold their pre-call values. -/
theorem startListening_failure_mutates_fresh_state :
    (startListening initialAudioAnalyzerState 48000 (.error "NotAllowedError")
        true true).1 = .error "NotAllowedError" ∧
    initialAudioAnalyzerState.audioContext = none ∧
    (startListening initialAudioAnalyzerState 48000 (.error "NotAllowedError")
        true true).2.audioContext = some 48000 := by
  exact ⟨rfl, rfl, rfl⟩

/-- C9 amended: when the microphone acquisition fails, `startListening`
propagates the error, registers no callback, schedules no analysis frame and
leaves `isListening` and the microphone connection untouched; and if the
audio context already existed (so `initialize` was a no-op) the entire state
is exactly as before the call. Only the lazy `initialize` effects
(audioContext, analyser, dataArray, sampleRate) may differ on a first call. -/
theorem startListening_failure_keeps_state (s : AudioAnalyzerState)
    (sr : ℕ) (msg : String) (onV onF : Bool) :
    (∃ e, (startListening s sr (.error msg) onV onF).1 = .error e) ∧
    (startListening s sr (.error msg) onV onF).2.isListening = s.isListening ∧
    (startListening s sr (.error msg) onV onF).2.onVolumeChange = s.onVolumeChange ∧
    (startListening s sr (.error msg) onV onF).2.onFrequencyChange = s.onFrequencyChange ∧
    (startListening s sr (.error msg) onV onF).2.animationFrameId = s.animationFrameId ∧
    (startListening s sr (.error msg) onV onF).2.microphone = s.microphone ∧
    (s.audioContext.isSome = true → (startListening s sr (.error msg) onV onF).2 = s) := by
  unfold startListening setupAudioContext
  rcases hA : s.audioContext with _ | ctx
  · simp [hA]
  · rcases hB : s.analyser with _ | an <;> simp [hA, hB]

/-- C9 witness: on an already-initialized analyzer, a failing microphone
acquisition leaves the whole state equal to its pre-call value. -/
theorem startListening_failure_keeps_state_witness :
    (⟨some 44100, some ⟨2048, 1024⟩, false, none, some 1024, false, false, false,
        44100⟩ : AudioAnalyzerState).audioContext.isSome = true ∧
    (startListening
        ⟨some 44100, some ⟨2048, 1024⟩, false, none, some 1024, false, false, false, 44100⟩
        48000 (.error "NotAllowedError") true false).2 =
      ⟨some 44100, some ⟨2048, 1024⟩, false, none, some 1024, false, false, false, 44100⟩ :=
  ⟨rfl,
   (startListening_failure_keeps_state
      ⟨some 44100, some ⟨2048, 1024⟩, false, none, some 1024, false, false, false, 44100⟩
      48000 "NotAllowedError" true false).2.2.2.2.2.2 rfl⟩

end Avatar
